import Mathlib

/-!
Shallow embedding of `src/download.py` (Teched-U/data-loader).

The script has two stages: a fetch stage (`download_videos`) that builds a
command line for the external `coursera-dl` tool from a JSON configuration,
and a combine stage (`concat_videos` / `combine_module` / `ffmpeg_concat` /
`srt_concat` / `gt_gen`) that walks a course/module/section directory tree
and merges each module's videos and subtitles, emitting a ground-truth
timestamp map.

Modelling conventions:
* Python floats (video durations, cue timestamps) are modelled as exact
  rationals `ℚ`; the claims under study are about the arithmetic structure
  of offsets, not float rounding.
* Python strings are Lean `String`s; Python's string comparison is
  code-point lexicographic, modelled by `strLe` below (Lean's built-in
  `String` order does not reduce in the kernel, so we spell out the
  comparison on `List Char`).
* `list.sort()` is Python's stable sort; it is modelled by the stable
  `List.insertionSort`.
* Filesystem and subprocess effects are modelled by returning the data the
  claims are about (argument lists, directories created, files written).
-/

namespace DataLoader

/-- Code-point lexicographic comparison of character lists, as Python
compares strings (`a <= b`). Defined directly so that it reduces in the
kernel. -/
def lexLe : List Char → List Char → Bool
  | [], _ => true
  | _ :: _, [] => false
  | a :: as, b :: bs =>
    if a.toNat < b.toNat then true
    else if b.toNat < a.toNat then false
    else lexLe as bs

/-- Python's `<=` on strings: code-point lexicographic order. -/
def strLe (a b : String) : Prop := lexLe a.data b.data = true

instance : DecidableRel strLe := fun a b => by unfold strLe; infer_instance

theorem lexLe_cons_iff {a b : Char} {as bs : List Char} :
    lexLe (a :: as) (b :: bs) = true ↔
      a.toNat < b.toNat ∨ (a.toNat = b.toNat ∧ lexLe as bs = true) := by
  by_cases h1 : a.toNat < b.toNat
  · simp [lexLe, h1]
  · by_cases h2 : b.toNat < a.toNat
    · simp [lexLe, h1, h2]
      omega
    · simp only [lexLe, if_neg h1, if_neg h2]
      constructor
      · intro h
        exact Or.inr ⟨by omega, h⟩
      · rintro (h | ⟨_, h⟩)
        · omega
        · exact h

theorem lexLe_total : ∀ as bs : List Char, lexLe as bs = true ∨ lexLe bs as = true
  | [], _ => Or.inl rfl
  | _ :: _, [] => Or.inr rfl
  | a :: as, b :: bs => by
    rcases Nat.lt_trichotomy a.toNat b.toNat with h | h | h
    · exact Or.inl (lexLe_cons_iff.2 (Or.inl h))
    · rcases lexLe_total as bs with ih | ih
      · exact Or.inl (lexLe_cons_iff.2 (Or.inr ⟨h, ih⟩))
      · exact Or.inr (lexLe_cons_iff.2 (Or.inr ⟨h.symm, ih⟩))
    · exact Or.inr (lexLe_cons_iff.2 (Or.inl h))

theorem lexLe_trans : ∀ as bs cs : List Char,
    lexLe as bs = true → lexLe bs cs = true → lexLe as cs = true
  | [], _, _, _, _ => rfl
  | _ :: _, [], _, h, _ => by simp [lexLe] at h
  | _ :: _, _ :: _, [], _, h => by simp [lexLe] at h
  | a :: as, b :: bs, c :: cs, h1, h2 => by
    rcases lexLe_cons_iff.1 h1 with hab | ⟨hab, hab'⟩ <;>
      rcases lexLe_cons_iff.1 h2 with hbc | ⟨hbc, hbc'⟩
    · exact lexLe_cons_iff.2 (Or.inl (hab.trans hbc))
    · exact lexLe_cons_iff.2 (Or.inl (by omega))
    · exact lexLe_cons_iff.2 (Or.inl (by omega))
    · exact lexLe_cons_iff.2 (Or.inr ⟨hab.trans hbc, lexLe_trans as bs cs hab' hbc'⟩)

instance : IsTotal String strLe := ⟨fun a b => lexLe_total a.data b.data⟩

instance : IsTrans String strLe := ⟨fun a b c => lexLe_trans a.data b.data c.data⟩

/-- Python's stable `list.sort()` on a list of path strings. -/
def sortStrings (l : List String) : List String := List.insertionSort strLe l

/-- A subtitle cue as handled by the `srt` library: a start time, an end
time (rational seconds) and the text content. The cue's sequence index is
omitted: `srt.compose` renumbers indices from 1 anyway, and no claim
mentions them. -/
structure Cue where
  start : ℚ
  stop : ℚ
  content : String
deriving DecidableEq

/-- The order in which the `srt` library sorts cues (`Subtitle.__lt__`
compares `(start, end)` tuples): lexicographic on (start, stop). -/
def cueLe (c d : Cue) : Prop :=
  c.start < d.start ∨ (c.start = d.start ∧ c.stop ≤ d.stop)

instance : DecidableRel cueLe := fun c d => by unfold cueLe; infer_instance

instance : IsTotal Cue cueLe := by
  constructor
  intro c d
  rcases lt_trichotomy c.start d.start with h | h | h
  · exact Or.inl (Or.inl h)
  · rcases le_total c.stop d.stop with h2 | h2
    · exact Or.inl (Or.inr ⟨h, h2⟩)
    · exact Or.inr (Or.inr ⟨h.symm, h2⟩)
  · exact Or.inr (Or.inl h)

instance : IsTrans Cue cueLe := by
  constructor
  rintro c d e (h1 | ⟨h1, h1'⟩) (h2 | ⟨h2, h2'⟩)
  · exact Or.inl (h1.trans h2)
  · exact Or.inl (h2 ▸ h1)
  · exact Or.inl (h1 ▸ h2)
  · exact Or.inr ⟨h1.trans h2, h1'.trans h2'⟩

/-- `srt.compose(subs)` with its default `reindex=True`: before writing,
the library passes the cues through `sort_and_reindex`, i.e. it sorts them
by `(start, end)` with Python's stable sort (and renumbers the indices,
which our `Cue` does not carry). -/
def compose (subs : List Cue) : List Cue := List.insertionSort cueLe subs

/-- `sub.start += timedelta(seconds=offset); sub.end += ...` applied to one
cue (src/download.py lines 131-133). -/
def shiftCue (offset : ℚ) (c : Cue) : Cue :=
  { c with start := c.start + offset, stop := c.stop + offset }

/-- The accumulation loop of `srt_concat` (src/download.py lines 124-136):
`offset = 0; for srt_file, dur in zip(srts, durations): shift that file's
cues by offset, append them to all_subs, offset += dur`. The zipped pairs
are the argument; each input file is represented by its parsed cue list. -/
def accumSubs : ℚ → List (List Cue × ℚ) → List Cue
  | _, [] => []
  | offset, (subs, dur) :: rest =>
    subs.map (shiftCue offset) ++ accumSubs (offset + dur) rest

/-- `srt_concat` (src/download.py lines 123-140): accumulate the shifted
cues over `zip(srts, durations)` and write `srt.compose(all_subs)` to the
output file. The value returned here is the cue sequence serialized to
that file. -/
def srt_concat (srts : List (List Cue)) (durations : List ℚ) : List Cue :=
  compose (accumSubs 0 (srts.zip durations))

/-- The running prefix-sum offsets: `offsetsFrom t [d0, d1, ...]` is
`[t, t + d0, t + d0 + d1, ...]`, one entry per duration. -/
def offsetsFrom : ℚ → List ℚ → List ℚ
  | _, [] => []
  | t, d :: ds => t :: offsetsFrom (t + d) ds

/-- Assignment `gt_dict[t] = v` on a Python `dict` modelled as an
insertion-ordered association list: an existing key keeps its position and
gets the new value, a fresh key is appended at the end. -/
def dictInsert (k : ℚ) (v : String) (d : List (ℚ × String)) : List (ℚ × String) :=
  if d.any fun p => decide (p.1 = k) then
    d.map fun p => if p.1 = k then (p.1, v) else p
  else d ++ [(k, v)]

/-- The loop of `gt_gen`: `for dur in durations: gt_dict[t] = "dummy";
t += dur`, starting from `t = 0.0`. -/
def gtLoop : ℚ → List ℚ → List (ℚ × String) → List (ℚ × String)
  | _, [], gt => gt
  | t, dur :: ds, gt => gtLoop (t + dur) ds (dictInsert t "dummy" gt)

/-- `gt_gen` (src/download.py lines 142-153): drop the last duration
(`durations[:-1]`), then run the offset loop on an initially empty dict.
The result is the dict serialized to the `.json` output file. -/
def gt_gen (durations : List ℚ) : List (ℚ × String) :=
  gtLoop 0 durations.dropLast []

/-- A JSON value as it appears in the configuration dict of
`download_videos`: a string (ordinary flag values) or a list of strings
(the `FLAGS` key). -/
inductive JVal where
  | str : String → JVal
  | list : List String → JVal
deriving DecidableEq

/-- Python `args += v`: iterating a list of strings appends its elements;
iterating a string appends its individual characters. -/
def flagsElems : JVal → List JVal
  | .list xs => xs.map JVal.str
  | .str s => s.data.map fun c => JVal.str (String.mk [c])

/-- The argument-construction loop of `download_videos` (src/download.py
lines 35-44): start from `['coursera-dl']`; for each config key `k` with
value `v`, if `k != "FLAGS"` then skip it when `'-' not in k`
(`continue`), otherwise append `k` and `v`; for `k == "FLAGS"` do
`args += v`. The config dict is modelled as an association list in
insertion (iteration) order. -/
def download_args (config : List (String × JVal)) : List JVal :=
  config.foldl
    (fun args kv =>
      if kv.1 ≠ "FLAGS" then
        if ¬ ('-' ∈ kv.1.data) then args
        else args ++ [JVal.str kv.1, kv.2]
      else args ++ flagsElems kv.2)
    [JVal.str "coursera-dl"]

/-- Spec-level description of what one config entry contributes to the
argument list, for comparison with `download_args`: the `FLAGS` value is
spliced in, a key containing a hyphen becomes a flag/value pair, and any
other key contributes nothing. -/
def argItems (kv : String × JVal) : List JVal :=
  if kv.1 = "FLAGS" then flagsElems kv.2
  else if '-' ∈ kv.1.data then [JVal.str kv.1, kv.2] else []

/-- The two pipeline stages `main` can run. -/
inductive Stage where
  | get
  | concat
deriving DecidableEq

/-- A Python exception raised while dispatching in `main`. -/
inductive PyError where
  | nameError : String → PyError
  | typeError : String → PyError
deriving DecidableEq

/-- The dispatch of `main` (src/download.py lines 238-253), modelled as the
list of stages that actually execute, or the exception raised first.
Mode `get` evaluates `ilick.echo("Getting Videos..")` before calling the
downloader, and the name `ilick` is defined nowhere (a typo for `click`),
so a `NameError` is raised and `download_videos` never runs. Mode
`concat` runs the combine stage. Any other mode (including the default
`all`) calls `run([...])` with a plain Python list of two coroutine
objects; `loop.run_until_complete` rejects a list with a `TypeError`, so
neither coroutine executes. -/
def mainStages (mode : String) : Except PyError (List Stage) :=
  if mode = "get" then
    Except.error (PyError.nameError "ilick")
  else if mode = "concat" then
    Except.ok [Stage.concat]
  else
    Except.error
      (PyError.typeError "An asyncio.Future, a coroutine or an awaitable is required")

/-- One section directory of a module as seen by `combine_module`:
its name plus the path lists returned by `glob.glob(f"{mod_dir}/*.mp4")`
and `glob.glob(f"{mod_dir}/*.en.srt")`, in the (arbitrary) order glob
yields them. -/
structure SectionDir where
  name : String
  videos : List String
  srts : List String
deriving DecidableEq

/-- One iteration of the section loop in `combine_module` (src/download.py
lines 167-181): if the section has no `*.mp4` files, `continue`; otherwise
sort the videos and append them to `mod_video_list`, then sort the
`*.en.srt` files and append them to `mod_srt_list`. -/
def combineStep (acc : List String × List String) (sec : SectionDir) :
    List String × List String :=
  if sec.videos.length = 0 then acc
  else (acc.1 ++ sortStrings sec.videos, acc.2 ++ sortStrings sec.srts)

/-- The per-module `(mod_video_list, mod_srt_list)` built by
`combine_module` over its sections, in enumeration order. -/
def combineLists (sections : List SectionDir) : List String × List String :=
  sections.foldl combineStep ([], [])

/-- Filesystem effects of one `combine_module` call that the claims are
about: directories created by `mkdir(parents=True, exist_ok=True)` and the
per-module output files written. (The `/tmp` intermediates of
`ffmpeg_concat` are created only on the non-skip path and are not part of
any claim.) -/
structure ModuleEffects where
  dirsCreated : List String
  filesWritten : List String
deriving DecidableEq

/-- `combine_module` (src/download.py lines 158-195): `Path(output_dir)`
is mkdir'ed first; then the section lists are built; if `mod_video_list`
is empty the function returns with no files written; otherwise it writes
`{mod_name}.mp4`, `{mod_name}.srt` and `{mod_name}.json` under
`output_dir`. -/
def combine_module (modName : String) (sections : List SectionDir)
    (outputDir : String) : ModuleEffects :=
  let lists := combineLists sections
  if lists.1.length = 0 then
    { dirsCreated := [outputDir], filesWritten := [] }
  else
    { dirsCreated := [outputDir],
      filesWritten := [outputDir ++ "/" ++ modName ++ ".mp4",
                       outputDir ++ "/" ++ modName ++ ".srt",
                       outputDir ++ "/" ++ modName ++ ".json"] }

/-! Helper lemmas shared by the claim theorems below. -/

theorem accumSubs_zip : ∀ (srts : List (List Cue)) (durations : List ℚ) (t : ℚ),
    accumSubs t (srts.zip durations) =
      (srts.zip (offsetsFrom t durations)).flatMap fun p => p.1.map (shiftCue p.2)
  | [], _, _ => by simp [accumSubs]
  | _ :: _, [], _ => by simp [offsetsFrom, accumSubs]
  | subs :: rest, d :: ds, t => by
    simp only [List.zip_cons_cons, offsetsFrom, accumSubs, List.flatMap_cons]
    rw [show List.zipWith Prod.mk rest ds = rest.zip ds from rfl, accumSubs_zip rest ds (t + d)]

theorem offsetsFrom_eq : ∀ (ds : List ℚ) (t : ℚ),
    offsetsFrom t ds = (List.range ds.length).map fun i => t + (ds.take i).sum
  | [], t => by simp [offsetsFrom]
  | d :: ds, t => by
    rw [offsetsFrom, offsetsFrom_eq ds (t + d)]
    simp only [List.length_cons, List.range_succ_eq_map, List.map_cons, List.map_map,
      List.take_zero, List.sum_nil, add_zero, List.cons.injEq, true_and]
    apply List.map_congr_left
    intro i _
    simp [Function.comp, List.take_succ_cons, add_assoc]

theorem foldl_combineStep_eq : ∀ (sections : List SectionDir) (acc : List String × List String),
    sections.foldl combineStep acc =
      (acc.1 ++ (sections.filter fun s => !s.videos.isEmpty).flatMap fun s => sortStrings s.videos,
       acc.2 ++ (sections.filter fun s => !s.videos.isEmpty).flatMap fun s => sortStrings s.srts)
  | [], acc => by simp
  | s :: rest, acc => by
    rw [List.foldl_cons, foldl_combineStep_eq rest]
    by_cases h : s.videos.length = 0
    · have he : s.videos.isEmpty = true := by
        simp [List.isEmpty_iff, List.length_eq_zero] at h ⊢; exact h
      simp [combineStep, h, List.filter_cons, he]
    · have he : s.videos.isEmpty = false := by
        simp [List.isEmpty_iff]; intro hc; simp [hc] at h
      simp [combineStep, h, List.filter_cons, he]

theorem combineLists_eq (sections : List SectionDir) :
    combineLists sections =
      ((sections.filter fun s => !s.videos.isEmpty).flatMap fun s => sortStrings s.videos,
       (sections.filter fun s => !s.videos.isEmpty).flatMap fun s => sortStrings s.srts) := by
  rw [combineLists, foldl_combineStep_eq]
  simp

theorem dictInsert_of_fresh {k : ℚ} {v : String} {d : List (ℚ × String)}
    (h : k ∉ d.map Prod.fst) : dictInsert k v d = d ++ [(k, v)] := by
  rw [dictInsert, if_neg]
  simp only [List.any_eq_true, decide_eq_true_eq, not_exists, not_and]
  intro p hp he
  exact h (List.mem_map.2 ⟨p, hp, he⟩)

theorem gtLoop_eq : ∀ (ds : List ℚ) (t : ℚ) (acc : List (ℚ × String)),
    (acc.map Prod.fst ++ offsetsFrom t ds).Nodup →
    gtLoop t ds acc = acc ++ (offsetsFrom t ds).map fun x => (x, "dummy")
  | [], t, acc, _ => by simp [gtLoop, offsetsFrom]
  | d :: ds, t, acc, h => by
    rw [offsetsFrom] at h
    have ht : t ∉ acc.map Prod.fst := by
      rw [List.nodup_append] at h
      exact fun hm => h.2.2 hm (List.mem_cons_self _ _)
    have h2 : (((acc ++ [(t, "dummy")]).map Prod.fst) ++ offsetsFrom (t + d) ds).Nodup := by
      simpa [List.map_append, List.append_assoc] using h
    rw [gtLoop, dictInsert_of_fresh ht, gtLoop_eq ds (t + d) _ h2]
    simp [offsetsFrom, List.map_cons, List.append_assoc]

theorem zip_eq_zip_take_min {α β : Type} : ∀ (as : List α) (bs : List β),
    as.zip bs = (as.take (min as.length bs.length)).zip (bs.take (min as.length bs.length))
  | [], _ => by simp
  | _ :: _, [] => by simp
  | a :: as, b :: bs => by
    simp only [List.length_cons, List.zip_cons_cons, Nat.succ_min_succ, List.take_succ_cons]
    rw [← zip_eq_zip_take_min as bs]

theorem foldl_append_flatMap {α β : Type} (g : α → List β) :
    ∀ (l : List α) (acc : List β),
      l.foldl (fun a x => a ++ g x) acc = acc ++ l.flatMap g
  | [], acc => by simp
  | x :: l, acc => by
    rw [List.foldl_cons, foldl_append_flatMap g l]
    simp [List.flatMap_cons]

/-! The claim theorems. -/

/-- Claim C1, counterexample: the claim promises that for durations
`[d0, ..., dn]` the ground-truth mapping always has exactly `n` keys. For
the duration list `[0, 0, 5]` (`n = 2`) the second cumulative offset
collides with the first, the Python dict entry is overwritten in place,
and the mapping has a single key, not two. -/
theorem gt_gen_duplicate_offset_counterexample :
    gt_gen [0, 0, 5] = [(0, "dummy")] ∧ (gt_gen [0, 0, 5]).length ≠ 2 := by
  constructor
  · norm_num [gt_gen, gtLoop, dictInsert]
  · norm_num [gt_gen, gtLoop, dictInsert]

/-- Claim C1, amended: provided the cumulative offsets
`0, d0, d0+d1, ..., d0+...+d(n-2)` are pairwise distinct (as they are
whenever all durations are positive), `gt_gen` produces exactly those
offsets as keys, in order, each mapped to the sentinel label `"dummy"`;
in particular a one-element duration list yields an empty mapping, since
`offsetsFrom 0 [d].dropLast = []`. -/
theorem gt_gen_keys (durations : List ℚ)
    (h : (offsetsFrom 0 durations.dropLast).Nodup) :
    gt_gen durations = ((offsetsFrom 0 durations.dropLast).map fun t => (t, "dummy")) ∧
      offsetsFrom 0 durations.dropLast =
        ((List.range durations.dropLast.length).map fun i => (durations.dropLast.take i).sum) := by
  constructor
  · rw [gt_gen, gtLoop_eq _ _ _ (by simpa using h)]
    simp
  · rw [offsetsFrom_eq]
    exact List.map_congr_left fun i _ => zero_add _

/-- Claim C1, witness: for durations `[2, 3, 7]` the offsets `[0, 2]` are
distinct and the ground-truth mapping is `{0: "dummy", 2: "dummy"}`. -/
theorem gt_gen_keys_witness :
    (offsetsFrom 0 ([2, 3, 7] : List ℚ).dropLast).Nodup ∧
      gt_gen [2, 3, 7] = [(0, "dummy"), (2, "dummy")] := by
  have hnd : (offsetsFrom 0 ([2, 3, 7] : List ℚ).dropLast).Nodup := by
    norm_num [offsetsFrom]
  refine ⟨hnd, ?_⟩
  exact ((gt_gen_keys [2, 3, 7] hnd).1).trans (by norm_num [offsetsFrom])

/-- Claim C2: for equal-length inputs, the accumulated cue sequence of
`srt_concat` is, in input order, the concatenation of each file's cues
shifted by the running offset; the i-th offset is the sum of durations
`0..i-1`; and every accumulated (shifted) cue appears in the serialized
output, which is a permutation of the accumulation. -/
theorem srt_concat_offsets (srts : List (List Cue)) (durations : List ℚ)
    (h : srts.length = durations.length) :
    accumSubs 0 (srts.zip durations) =
        ((srts.zip (offsetsFrom 0 durations)).flatMap fun p => p.1.map (shiftCue p.2)) ∧
      offsetsFrom 0 durations =
        ((List.range durations.length).map fun i => (durations.take i).sum) ∧
      List.Perm (srt_concat srts durations) (accumSubs 0 (srts.zip durations)) := by
  refine ⟨accumSubs_zip srts durations 0, ?_, ?_⟩
  · rw [offsetsFrom_eq]
    exact List.map_congr_left fun i _ => zero_add _
  · exact List.perm_insertionSort cueLe _

/-- Claim C2, witness: cue lists `[(0,1,"a")]` and `[(0,2,"b")]` with
durations `[5, 3]` accumulate to `[(0,1,"a"), (5,7,"b")]`. -/
theorem srt_concat_offsets_witness :
    ([[⟨0, 1, "a"⟩], [⟨0, 2, "b"⟩]] : List (List Cue)).length = ([5, 3] : List ℚ).length ∧
      accumSubs 0 (([[⟨0, 1, "a"⟩], [⟨0, 2, "b"⟩]] : List (List Cue)).zip [5, 3]) =
        [⟨0, 1, "a"⟩, ⟨5, 7, "b"⟩] := by
  refine ⟨rfl, ?_⟩
  rw [(srt_concat_offsets [[⟨0, 1, "a"⟩], [⟨0, 2, "b"⟩]] [5, 3] rfl).1]
  norm_num [offsetsFrom, shiftCue]

/-- Claim C3: what `main` actually does per mode. Mode `get` raises a
`NameError` on the undefined name `ilick` (a typo for `click`) before
`download_videos` is ever invoked; mode `concat` runs the combine stage;
mode `all` raises a `TypeError` because `run` hands a plain list of
coroutines to `loop.run_until_complete`. So the claim's statement that
`get` executes the downloader (and that `all` runs both stages) does not
hold of the code. -/
theorem main_mode_dispatch :
    mainStages "get" = Except.error (PyError.nameError "ilick") ∧
      mainStages "concat" = Except.ok [Stage.concat] ∧
      mainStages "all" = Except.error
        (PyError.typeError "An asyncio.Future, a coroutine or an awaitable is required") :=
  ⟨rfl, rfl, rfl⟩

/-- Claim C4, counterexample: the configuration key `output_path` is not
`FLAGS`, yet it is not passed through to the argument list — keys without
a hyphen are skipped by `if '-' not in k: continue`. -/
theorem download_args_skips_nonflag_key :
    download_args [("output_path", JVal.str "out")] = [JVal.str "coursera-dl"] ∧
      JVal.str "output_path" ∉ download_args [("output_path", JVal.str "out")] := by
  decide

/-- Claim C4, amended: a configuration key other than `FLAGS` is passed
through as a flag/value pair exactly when it contains a hyphen; keys
without a hyphen are silently dropped; the `FLAGS` value is spliced in
verbatim at its position in iteration order. -/
theorem download_args_hyphen_only (config : List (String × JVal)) :
    download_args config = JVal.str "coursera-dl" :: config.flatMap argItems := by
  have hstep :
      (fun (args : List JVal) (kv : String × JVal) =>
        if kv.1 ≠ "FLAGS" then
          if ¬ ('-' ∈ kv.1.data) then args
          else args ++ [JVal.str kv.1, kv.2]
        else args ++ flagsElems kv.2) =
      fun args kv => args ++ argItems kv := by
    funext args kv
    by_cases h1 : kv.1 = "FLAGS"
    · simp [h1, argItems]
    · by_cases h2 : '-' ∈ kv.1.data
      · simp [h1, h2, argItems]
      · simp [h1, h2, argItems]
  rw [download_args, hstep, foldl_append_flatMap]
  rfl

/-- Claim C5, counterexample: with sections enumerated as `b` then `a`,
each holding one video, the per-module video list is
`["c/m/b/x.mp4", "c/m/a/y.mp4"]`, which is not lexicographically sorted —
sorting happens per section, not across the module. -/
theorem combineLists_not_globally_sorted :
    (combineLists [⟨"b", ["c/m/b/x.mp4"], []⟩, ⟨"a", ["c/m/a/y.mp4"], []⟩]).1 =
        ["c/m/b/x.mp4", "c/m/a/y.mp4"] ∧
      ¬ List.Sorted strLe
        (combineLists [⟨"b", ["c/m/b/x.mp4"], []⟩, ⟨"a", ["c/m/a/y.mp4"], []⟩]).1 := by
  decide

/-- Claim C5, amended: the per-module video and subtitle lists are the
concatenation, in section-enumeration order, of each video-bearing
section's lexicographically sorted file lists; each per-section block is
sorted, but the whole-module list need not be. -/
theorem combineLists_per_section_sorted (sections : List SectionDir) :
    (combineLists sections).1 =
        ((sections.filter fun s => !s.videos.isEmpty).flatMap fun s => sortStrings s.videos) ∧
      (combineLists sections).2 =
        ((sections.filter fun s => !s.videos.isEmpty).flatMap fun s => sortStrings s.srts) ∧
      ∀ files : List String, List.Sorted strLe (sortStrings files) := by
  refine ⟨?_, ?_, fun files => List.sorted_insertionSort strLe files⟩
  · rw [combineLists_eq]
  · rw [combineLists_eq]

/-- Claim C6, counterexample: `srt.compose` is called with its default
`reindex=True`, which re-sorts cues by time before serialization. With
cue `(10,11,"a")` in the first file and `(0,1,"b")` in the second
(durations `[5, 5]`), the accumulation order is
`[(10,11,"a"), (5,6,"b")]` but the serialized output is
`[(5,6,"b"), (10,11,"a")]` — not the accumulation order. -/
theorem srt_concat_resorts_counterexample :
    srt_concat [[⟨10, 11, "a"⟩], [⟨0, 1, "b"⟩]] [5, 5] = [⟨5, 6, "b"⟩, ⟨10, 11, "a"⟩] ∧
      accumSubs 0 (([[⟨10, 11, "a"⟩], [⟨0, 1, "b"⟩]] : List (List Cue)).zip [5, 5]) =
        [⟨10, 11, "a"⟩, ⟨5, 6, "b"⟩] ∧
      srt_concat [[⟨10, 11, "a"⟩], [⟨0, 1, "b"⟩]] [5, 5] ≠
        accumSubs 0 (([[⟨10, 11, "a"⟩], [⟨0, 1, "b"⟩]] : List (List Cue)).zip [5, 5]) := by
  have h1 : srt_concat [[⟨10, 11, "a"⟩], [⟨0, 1, "b"⟩]] [5, 5] =
      [⟨5, 6, "b"⟩, ⟨10, 11, "a"⟩] := by
    norm_num [srt_concat, compose, accumSubs, shiftCue, cueLe]
  have h2 : accumSubs 0 (([[⟨10, 11, "a"⟩], [⟨0, 1, "b"⟩]] : List (List Cue)).zip [5, 5]) =
      [⟨10, 11, "a"⟩, ⟨5, 6, "b"⟩] := by
    norm_num [accumSubs, shiftCue]
  refine ⟨h1, h2, ?_⟩
  rw [h1, h2]
  intro hc
  simp only [List.cons.injEq, Cue.mk.injEq] at hc
  norm_num at hc

/-- Claim C6, amended: the serialized output of `srt_concat` is the
accumulated cue sequence re-sorted by cue time — a permutation of the
accumulation that is sorted by `(start, end)` — rather than the
accumulation order itself. -/
theorem srt_concat_sorted_output (srts : List (List Cue)) (durations : List ℚ) :
    List.Perm (srt_concat srts durations) (accumSubs 0 (srts.zip durations)) ∧
      List.Sorted cueLe (srt_concat srts durations) :=
  ⟨List.perm_insertionSort cueLe _, List.sorted_insertionSort cueLe _⟩

/-- Claim C7: a module all of whose sections have no `*.mp4` files is
skipped — `combine_module` writes none of the three per-module output
files. -/
theorem combine_module_skips_videoless_module (modName outputDir : String)
    (sections : List SectionDir) (h : ∀ s ∈ sections, s.videos = []) :
    (combine_module modName sections outputDir).filesWritten = [] := by
  have hfilter : (sections.filter fun s => !s.videos.isEmpty) = [] := by
    rw [List.filter_eq_nil_iff]
    intro s hs
    simp [h s hs]
  have hl : (combineLists sections).1 = [] := by
    rw [combineLists_eq, hfilter]
    rfl
  simp [combine_module, hl]

/-- Claim C7, witness: a single section with a subtitle file but no video
produces no output files. -/
theorem combine_module_skips_videoless_module_witness :
    (∀ s ∈ [(⟨"s1", [], ["c/m/s1/a.en.srt"]⟩ : SectionDir)], s.videos = []) ∧
      (combine_module "Mod1" [⟨"s1", [], ["c/m/s1/a.en.srt"]⟩] "out/CourseA").filesWritten = [] :=
  ⟨by decide, combine_module_skips_videoless_module _ _ _ (by decide)⟩

/-- Claim C8: when the subtitle and duration lists have different lengths,
`srt_concat` raises no error (the model is a total function) — `zip`
pairs the lists positionally, so both the accumulation and the serialized
output depend only on the first `min` pairs; surplus elements of the
longer list are silently ignored. -/
theorem srt_concat_truncates_to_min (srts : List (List Cue)) (durations : List ℚ)
    (h : srts.length ≠ durations.length) :
    accumSubs 0 (srts.zip durations) =
        accumSubs 0 ((srts.take (min srts.length durations.length)).zip
          (durations.take (min srts.length durations.length))) ∧
      srt_concat srts durations =
        srt_concat (srts.take (min srts.length durations.length))
          (durations.take (min srts.length durations.length)) := by
  have hz := zip_eq_zip_take_min srts durations
  constructor
  · rw [← hz]
  · simp only [srt_concat]
    rw [← hz]

/-- Claim C8, witness: one subtitle file with durations `[5, 3]` — the
surplus duration `3` is ignored. -/
theorem srt_concat_truncates_to_min_witness :
    ([[⟨0, 1, "a"⟩]] : List (List Cue)).length ≠ ([5, 3] : List ℚ).length ∧
      (accumSubs 0 (([[⟨0, 1, "a"⟩]] : List (List Cue)).zip [5, 3]) =
          accumSubs 0 (([[⟨0, 1, "a"⟩]] : List (List Cue)).zip [5]) ∧
        srt_concat [[⟨0, 1, "a"⟩]] [5, 3] = srt_concat [[⟨0, 1, "a"⟩]] [5]) :=
  ⟨by decide, srt_concat_truncates_to_min [[⟨0, 1, "a"⟩]] [5, 3] (by decide)⟩

/-- Claim C9: even for a module that is skipped because no section has
videos, `combine_module` has already created the per-course output
directory (the `mkdir` precedes the skip check). -/
theorem combine_module_mkdir_before_skip (modName outputDir : String)
    (sections : List SectionDir) (h : ∀ s ∈ sections, s.videos = []) :
    (combine_module modName sections outputDir).dirsCreated = [outputDir] := by
  simp only [combine_module]
  split <;> rfl

/-- Claim C9, witness: a module with one empty section still creates the
per-course output directory. -/
theorem combine_module_mkdir_before_skip_witness :
    (∀ s ∈ [(⟨"s1", [], []⟩ : SectionDir)], s.videos = []) ∧
      (combine_module "Mod1" [⟨"s1", [], []⟩] "out/CourseA").dirsCreated = ["out/CourseA"] :=
  ⟨by decide, combine_module_mkdir_before_skip _ _ _ (by decide)⟩

/-- Claim C10: a section whose video glob matches nothing is skipped
before its subtitles are collected, so wherever it occurs in the
enumeration order — before, between or after video-bearing sections — it
contributes neither videos nor subtitles to the per-module lists: the
lists are the same as if the section were absent, and in particular its
`*.en.srt` files are excluded from the merged output. -/
theorem combineLists_videoless_section_excluded (s : SectionDir)
    (pre post : List SectionDir) (h : s.videos = []) :
    combineLists (pre ++ s :: post) = combineLists (pre ++ post) := by
  rw [combineLists, combineLists, List.foldl_append, List.foldl_append, List.foldl_cons]
  congr 1
  simp [combineStep, h]

/-- Claim C10, witness: a video-less section holding a subtitle file,
enumerated between two video-bearing sections, contributes nothing; the
module lists equal those of the other sections alone. -/
theorem combineLists_videoless_section_excluded_witness :
    ((⟨"s1", [], ["c/m/s1/a.en.srt"]⟩ : SectionDir).videos = []) ∧
      combineLists ([⟨"s0", ["c/m/s0/u.mp4"], ["c/m/s0/u.en.srt"]⟩] ++
          (⟨"s1", [], ["c/m/s1/a.en.srt"]⟩ : SectionDir) ::
            [⟨"s2", ["c/m/s2/v.mp4"], ["c/m/s2/v.en.srt"]⟩]) =
        combineLists ([⟨"s0", ["c/m/s0/u.mp4"], ["c/m/s0/u.en.srt"]⟩] ++
          [⟨"s2", ["c/m/s2/v.mp4"], ["c/m/s2/v.en.srt"]⟩]) :=
  ⟨rfl, combineLists_videoless_section_excluded _ _ _ rfl⟩

end DataLoader
